import Mathlib

/-!
Shallow embedding of `src/ucumvert/parser.py` (the UCUM grammar/transformer).

The grammar text `UCUM_GRAMMAR` and the class `UnitsTransformer` are embedded
below.  Python dictionaries become association lists, a lark `Token` becomes
its matched string, and the lark parse tree becomes the inductive `PTree`.
A transformer callback that raises a `TypeError`/`IndexError` is modelled by
returning `Option.none`; a callback that returns Python `None` is modelled by
the value `PVal.vnone`.
-/

namespace Ucumvert

/-- Python-like runtime values manipulated by `UnitsTransformer`:
integers, strings, dicts, lists and `None`. -/
inductive PVal where
  | vint (n : Int)
  | vstr (s : String)
  | vdict (entries : List (String × PVal))
  | vlist (items : List PVal)
  | vnone

/-- Update one key of a Python dict (`d[k] = x` keeps the key's position,
a fresh key is appended), as dict literals `{**a, **b}` do. -/
def dictSet (d : List (String × PVal)) (k : String) (x : PVal) :
    List (String × PVal) :=
  if d.any (fun p => p.1 = k) then
    d.map (fun p => if p.1 = k then (k, x) else p)
  else d ++ [(k, x)]

/-- Python dict merge `{**a, **b}` on the underlying entry lists. -/
def dictUpdate (a b : List (String × PVal)) : List (String × PVal) :=
  b.foldl (fun acc p => dictSet acc p.1 p.2) a

/-- Python `{**a, **b}`: succeeds only when both operands are dicts,
otherwise the interpreter raises a `TypeError` (modelled as `none`). -/
def pyMerge : PVal → PVal → Option PVal
  | .vdict a, .vdict b => some (.vdict (dictUpdate a b))
  | _, _ => none

/-- Python string slicing `s[:n]` for the ASCII token strings involved. -/
def strTake (s : String) (n : Nat) : String :=
  String.mk (s.data.take n)

/-- Numeric value of a digit list. -/
def digitsToNat (l : List Char) : Nat :=
  l.foldl (fun a c => a * 10 + (c.toNat - '0'.toNat)) 0

/-- Python `int(...)` on the sign-and-digits strings produced by the lexer. -/
def pyInt (s : String) : Int :=
  match s.data with
  | '-' :: rest => - (digitsToNat rest : Int)
  | '+' :: rest => (digitsToNat rest : Int)
  | l => (digitsToNat l : Int)

/-- The three symbol sets the vocabulary provider feeds into `ucum_parser`:
prefix symbols, metric atoms, non-metric atoms. -/
structure Vocab where
  pfxSyms : List String
  metricSyms : List String
  nonMetricSyms : List String

/-- Boolean test that the first list is a prefix of the second. -/
def listStarts : List Char → List Char → Bool
  | [], _ => true
  | _ :: _, [] => false
  | a :: as, b :: bs => a = b && listStarts as bs

/-- Lengths of all the vocabulary symbols of one terminal class that match
at the current input position. -/
def matchLens (l : List String) (cs : List Char) : List Nat :=
  (l.filter (fun s => listStarts s.data cs)).map String.length

/-- Largest element of a list of lengths (`none` on the empty list). -/
def maxLen : List Nat → Option Nat
  | [] => none
  | n :: ns => some ((n :: ns).foldl Nat.max 0)

/-- Modelled from the spec: the matching of one terminal class (PREFIX,
METRIC, NON_METRIC) of the compiled grammar.  The actual matching is done by
the external `lark` library inside `ucum_parser`; spec §4.2/§4.3 require
maximal munch, i.e. the longest vocabulary symbol matching at the current
position wins, independently of the order the provider supplied them in. -/
def matchSym (l : List String) (cs : List Char) : Option (List Char × List Char) :=
  match maxLen (matchLens l cs) with
  | none => none
  | some m => some (cs.take m, cs.drop m)

/-- Char class `[1-9]` of `NON_ZERO_DIGITS`. -/
def isNZ (c : Char) : Bool := '1' ≤ c && c ≤ '9'

/-- Char class `[0-9]`. -/
def isDigitC (c : Char) : Bool := '0' ≤ c && c ≤ '9'

/-- Char class `[\x21-\x7E]`, the printable ASCII class of the `STRING` terminal. -/
def printable (c : Char) : Bool := 0x21 ≤ c.toNat && c.toNat ≤ 0x7E

/-- The terminal `NON_ZERO_DIGITS : /[1-9][0-9]*/` (greedy). -/
def lexNonZeroDigits : List Char → Option (List Char × List Char)
  | [] => none
  | c :: rest =>
    if isNZ c then
      some (c :: rest.takeWhile isDigitC, rest.dropWhile isDigitC)
    else none

/-- The terminal `EXPONENT : ["+"|"-"] NON_ZERO_DIGITS`. -/
def lexExponent (cs : List Char) : Option (List Char × List Char) :=
  match cs with
  | [] => none
  | c :: rest =>
    if c = '+' || c = '-' then
      match lexNonZeroDigits rest with
      | some (ds, r) => some (c :: ds, r)
      | none => none
    else lexNonZeroDigits cs

/-- The terminal `FACTOR: NON_ZERO_DIGITS`. -/
def lexFactor (cs : List Char) : Option (List Char × List Char) :=
  lexNonZeroDigits cs

/-- Rightmost position of a `}` in a list, if any. -/
def lastCloseIdx : List Char → Option Nat
  | [] => none
  | c :: rest =>
    match lastCloseIdx rest with
    | some i => some (i + 1)
    | none => if c = '}' then some 0 else none

/-- The terminal `ANNOTATION: "{" STRING "}"` with `STRING: /[\x21-\x7E]*/`.
The greedy regex `\x7b[\x21-\x7E]*\x7d` matches `{`, then the maximal run of
printable ASCII, backtracking so that the match ends at the LAST `}` inside
that run (note `{` and `}` are themselves printable, hence inside the class). -/
def lexAnn (cs : List Char) : Option (List Char × List Char) :=
  match cs with
  | [] => none
  | c :: rest =>
    if c = '{' then
      let run := rest.takeWhile printable
      match lastCloseIdx run with
      | none => none
      | some k => some ('{' :: (run.take k ++ ['}']), rest.drop (k + 1))
    else none

/-- Terminals `OPERATOR: "." | DIVIDE` and `DIVIDE: "/"`; in term position the
token type is OPERATOR. -/
def lexOperator : List Char → Option (List Char × List Char)
  | [] => none
  | c :: rest =>
    if c = '.' || c = '/' then some ([c], rest) else none

/-- A lark parse tree: rule nodes with children, or a matched terminal with
its token type and matched text.  Anonymous literals (`(`, `)`) are filtered
out of the children, as lark does. -/
inductive PTree where
  | tok (ty : String) (val : String)
  | node (rule : String) (children : List PTree)

/-- Tail alternatives of `simple_unit` (NON_METRIC, then FACTOR). -/
def parseSimpleUnitNM (v : Vocab) (cs : List Char) : Option (PTree × List Char) :=
  match matchSym v.nonMetricSyms cs with
  | some (t, rest) => some (.node "simple_unit" [.tok "NON_METRIC" (String.mk t)], rest)
  | none =>
    match lexFactor cs with
    | some (t, rest) => some (.node "simple_unit" [.tok "FACTOR" (String.mk t)], rest)
    | none => none

/-- Rule `simple_unit: METRIC | PREFIX? METRIC | NON_METRIC | FACTOR` in grammar
order; a terminal class is matched with maximal munch (`matchSym`). -/
def parseSimpleUnit (v : Vocab) (cs : List Char) : Option (PTree × List Char) :=
  match matchSym v.metricSyms cs with
  | some (t, rest) => some (.node "simple_unit" [.tok "METRIC" (String.mk t)], rest)
  | none =>
    match matchSym v.pfxSyms cs with
    | some (p, rest1) =>
      match matchSym v.metricSyms rest1 with
      | some (m, rest2) =>
        some (.node "simple_unit" [.tok "PREFIX" (String.mk p), .tok "METRIC" (String.mk m)], rest2)
      | none => parseSimpleUnitNM v cs
    | none => parseSimpleUnitNM v cs

mutual

/-- Rule `term: term OPERATOR component | component`, left recursion unrolled
into a loop that nests `term` nodes to the left, exactly the tree lark builds. -/
def parseTerm (v : Vocab) : Nat → List Char → Option (PTree × List Char)
  | 0, _ => none
  | fuel + 1, cs =>
    match parseComponent v fuel cs with
    | none => none
    | some (c, rest) => parseTermLoop v fuel (.node "term" [c]) rest

/-- Iterates `OPERATOR component` and wraps the accumulated term. -/
def parseTermLoop (v : Vocab) : Nat → PTree → List Char → Option (PTree × List Char)
  | 0, _, _ => none
  | fuel + 1, acc, cs =>
    match lexOperator cs with
    | none => some (acc, cs)
    | some (op, rest) =>
      match parseComponent v fuel rest with
      | none => some (acc, cs)
      | some (c, rest') =>
        parseTermLoop v fuel (.node "term" [acc, .tok "OPERATOR" (String.mk op), c]) rest'

/-- Rule `component: annotatable ANNOTATION | annotatable | ANNOTATION`. -/
def parseComponent (v : Vocab) : Nat → List Char → Option (PTree × List Char)
  | 0, _ => none
  | fuel + 1, cs =>
    match parseAnnotatable v fuel cs with
    | some (a, rest) =>
      match lexAnn rest with
      | some (t, rest') => some (.node "component" [a, .tok "ANNOTATION" (String.mk t)], rest')
      | none => some (.node "component" [a], rest)
    | none =>
      match lexAnn cs with
      | some (t, rest) => some (.node "component" [.tok "ANNOTATION" (String.mk t)], rest)
      | none => none

/-- Rule `annotatable: simple_unit EXPONENT | simple_unit | "(" term ")"`. -/
def parseAnnotatable (v : Vocab) : Nat → List Char → Option (PTree × List Char)
  | 0, _ => none
  | fuel + 1, cs =>
    match parseSimpleUnit v cs with
    | some (su, rest) =>
      match lexExponent rest with
      | some (e, rest') => some (.node "annotatable" [su, .tok "EXPONENT" (String.mk e)], rest')
      | none => some (.node "annotatable" [su], rest)
    | none =>
      match cs with
      | '(' :: rest =>
        match parseTerm v fuel rest with
        | some (t, rest') =>
          match rest' with
          | ')' :: rest'' => some (.node "annotatable" [t], rest'')
          | _ => none
        | none => none
      | _ => none

end

/-- Rule `start: DIVIDE term | term`; the whole input must be consumed. -/
def parseStart (v : Vocab) (cs : List Char) : Option PTree :=
  let fuel := 8 * (cs.length + 1)
  match cs with
  | '/' :: rest =>
    match parseTerm v fuel rest with
    | some (t, []) => some (.node "start" [.tok "DIVIDE" "/", t])
    | _ => none
  | _ =>
    match parseTerm v fuel cs with
    | some (t, []) => some (.node "start" [t])
    | _ => none

namespace UnitsTransformer

/-- Python `def FACTOR(self, args): return {"factor": int(args)}`. -/
def FACTOR (v : String) : PVal :=
  .vdict [("factor", .vint (pyInt v))]

/-- Python `def EXPONENT(self, args)`: `args` is the matched token string; the
length tests were written for a list of children, so on the token they test
the number of characters.  Tokens longer than two characters fall through to
`return None`. -/
def EXPONENT (v : String) : PVal :=
  if v.length = 1 then .vdict [("exponent", .vint (pyInt (strTake v 1)))]
  else if v.length = 2 then .vdict [("exponent", .vint (pyInt v))]
  else .vnone

/-- Python `def start(self, args)` of `UnitsTransformer`. -/
def start (args : List PVal) : Option PVal :=
  match args with
  | [a] => some (.vlist [a])
  | [a, b] =>
    match b with
    | .vdict _ => (pyMerge a b).map (fun m => .vlist [m])
    | .vlist (h :: t) => (pyMerge a h).map (fun m => .vlist (m :: t))
    | _ => none
  | _ => some .vnone

/-- Python `def term(self, args)` of `UnitsTransformer`. -/
def term (args : List PVal) : Option PVal :=
  match args with
  | [a] => some a
  | [a, b, c] =>
    match a with
    | .vdict _ => (pyMerge b c).map (fun m => .vlist [a, m])
    | .vlist l => (pyMerge b c).map (fun m => .vlist (l ++ [m]))
    | _ => none
  | _ => some .vnone

/-- Python `def component(self, args)` of `UnitsTransformer`. -/
def component (args : List PVal) : Option PVal :=
  match args with
  | [a] => some a
  | [a, b] => pyMerge a b
  | _ => some .vnone

/-- Python `def simple_unit(self, args)` of `UnitsTransformer`. -/
def simple_unit (args : List PVal) : Option PVal :=
  match args with
  | [a] => some a
  | [a, b] => pyMerge a b
  | _ => some .vnone

/-- Python `def annotatable(self, args)` of `UnitsTransformer`. -/
def annotatable (args : List PVal) : Option PVal :=
  match args with
  | [a] => some a
  | [a, b] => pyMerge a b
  | _ => some .vnone

/-- Python `def ANNOTATION(self, args): return {"annotation": str(args[0])}` —
`args` is the matched token (braces included), so `args[0]` is its first
character, always the opening brace. -/
def AnnTok (v : String) : PVal :=
  .vdict [("annotation", .vstr (strTake v 1))]

/-- Python `def OPERATOR(self, args): return {"operator": args[0]}`. -/
def OPERATOR (v : String) : PVal :=
  .vdict [("operator", .vstr (strTake v 1))]

/-- Python `def DIVIDE(self, args): return {"operator": args[0]}`. -/
def DIVIDE (v : String) : PVal :=
  .vdict [("operator", .vstr (strTake v 1))]

/-- Python `def PREFIX(self, args)` (renamed here): the full symbol for `"da"`,
otherwise the token's first character `args[0]`. -/
def PrefTok (v : String) : PVal :=
  if v = "da" then .vdict [("prefix", .vstr (strTake v 2))]
  else .vdict [("prefix", .vstr (strTake v 1))]

/-- Python `def METRIC(self, args): return {"type": "metric", "unit": args[:]}`. -/
def METRIC (v : String) : PVal :=
  .vdict [("type", .vstr "metric"), ("unit", .vstr v)]

/-- Python `def NON_METRIC(self, args)`. -/
def NON_METRIC (v : String) : PVal :=
  .vdict [("type", .vstr "non_metric"), ("unit", .vstr v)]

end UnitsTransformer

/-- Dispatch of the token callbacks of `UnitsTransformer` by token type. -/
def applyTok (ty v : String) : PVal :=
  if ty = "FACTOR" then UnitsTransformer.FACTOR v
  else if ty = "EXPONENT" then UnitsTransformer.EXPONENT v
  else if ty = "ANNOTATION" then UnitsTransformer.AnnTok v
  else if ty = "OPERATOR" then UnitsTransformer.OPERATOR v
  else if ty = "DIVIDE" then UnitsTransformer.DIVIDE v
  else if ty = "PREFIX" then UnitsTransformer.PrefTok v
  else if ty = "METRIC" then UnitsTransformer.METRIC v
  else if ty = "NON_METRIC" then UnitsTransformer.NON_METRIC v
  else .vnone

/-- Dispatch of the rule callbacks of `UnitsTransformer` by rule name. -/
def applyRule (r : String) (args : List PVal) : Option PVal :=
  if r = "start" then UnitsTransformer.start args
  else if r = "term" then UnitsTransformer.term args
  else if r = "component" then UnitsTransformer.component args
  else if r = "simple_unit" then UnitsTransformer.simple_unit args
  else if r = "annotatable" then UnitsTransformer.annotatable args
  else some .vnone

mutual

/-- Bottom-up application of `UnitsTransformer` over a lark tree
(`Transformer.transform`); an exception in any callback propagates. -/
def transform : PTree → Option PVal
  | .tok ty v => some (applyTok ty v)
  | .node r cs =>
    match transformList cs with
    | none => none
    | some args => applyRule r args

/-- Transforms a children list left to right. -/
def transformList : List PTree → Option (List PVal)
  | [] => some []
  | t :: ts =>
    match transform t with
    | none => none
    | some a =>
      match transformList ts with
      | none => none
      | some as => some (a :: as)

end

/-- Outcome of `parse_and_transform`: a syntax error from the parser, an
exception inside the transformer, or a final Python value. -/
inductive PTResult where
  | synError
  | transformError
  | ok (v : PVal)

/-- Python `parse_and_transform(UnitsTransformer, data)` from `parser.py`
(minus the debug printing): parse, then transform. -/
def parseAndTransform (v : Vocab) (s : String) : PTResult :=
  match parseStart v s.data with
  | none => .synError
  | some t =>
    match transform t with
    | none => .transformError
    | some val => .ok val

/-- Number of top-level elements of an `ok` list result. -/
def topLen : PTResult → Option Nat
  | .ok (.vlist l) => some l.length
  | _ => none

/-- A vocabulary with prefix `k` and metric atoms `g`, `h`, `m`, `s`
(a slice of the standard UCUM tables), used by the concrete test claims. -/
def vocabSI : Vocab :=
  { pfxSyms := ["k"], metricSyms := ["g", "h", "m", "s"], nonMetricSyms := [] }

/-- Modelled from the spec: the grammar build of `ucum_parser` is performed by
the external `lark` library (`Lark(ucum_grammar)`), which is not part of the
embedded source; per spec §4.2/§7 it fails with a `ConfigurationError` at
build time when any vocabulary set is empty. -/
inductive BuildError where
  | configurationError

/-- Compiled grammar: the rule set closed over a vocabulary snapshot. -/
structure Grammar where
  vocab : Vocab

/-- Modelled from the spec: grammar construction (spec §4.2), failing when a
vocabulary set is empty, otherwise closing the fixed rule set over the
vocabulary. -/
def buildGrammar (v : Vocab) : Except BuildError Grammar :=
  if v.pfxSyms = [] ∨ v.metricSyms = [] ∨ v.nonMetricSyms = [] then
    .error .configurationError
  else .ok ⟨v⟩

/-! Helper lemmas about the maximal-munch terminal matcher. -/

/-- Seed bound of a `foldl Nat.max`. -/
theorem le_foldlMax_init (l : List Nat) (b : Nat) : b ≤ l.foldl Nat.max b := by
  induction l generalizing b with
  | nil => exact Nat.le_refl b
  | cons a t ih =>
    rw [List.foldl_cons]
    exact Nat.le_trans (Nat.le_max_left b a) (ih (Nat.max b a))

/-- Every member is below the `foldl Nat.max`. -/
theorem le_foldlMax_of_mem {l : List Nat} {x : Nat} (b : Nat) (hx : x ∈ l) :
    x ≤ l.foldl Nat.max b := by
  induction l generalizing b with
  | nil => cases hx
  | cons a t ih =>
    rw [List.foldl_cons]
    rcases List.mem_cons.mp hx with h | h
    · subst h
      exact Nat.le_trans (Nat.le_max_right b x) (le_foldlMax_init t _)
    · exact ih _ h

/-- The `foldl Nat.max` of a list is one of its members, or the seed. -/
theorem foldlMax_mem_or_init (l : List Nat) (b : Nat) :
    l.foldl Nat.max b ∈ l ∨ l.foldl Nat.max b = b := by
  induction l generalizing b with
  | nil => exact Or.inr rfl
  | cons a t ih =>
    rw [List.foldl_cons]
    rcases ih (Nat.max b a) with h | h
    · exact Or.inl (List.mem_cons_of_mem a h)
    · by_cases hba : b ≤ a
      · refine Or.inl ?_
        have hx : Nat.max b a = a := by simp [Nat.max, hba]
        rw [h, hx]
        exact List.mem_cons_self a t
      · refine Or.inr ?_
        have hab : a ≤ b := Nat.le_of_not_le hba
        have hx : Nat.max b a = b := by simp [Nat.max, hab]
        rw [h, hx]

/-- The largest element of a list of lengths is invariant under permutation. -/
theorem maxLen_perm {l₁ l₂ : List Nat} (h : l₁.Perm l₂) : maxLen l₁ = maxLen l₂ := by
  cases l₁ with
  | nil =>
    have h2 : l₂ = [] := h.symm.eq_nil
    subst h2; rfl
  | cons a t =>
    cases l₂ with
    | nil => exact absurd h.eq_nil (List.cons_ne_nil a t)
    | cons b u =>
      show some _ = some _
      congr 1
      apply Nat.le_antisymm
      · rcases foldlMax_mem_or_init (a :: t) 0 with hm | hm
        · exact le_foldlMax_of_mem 0 (h.mem_iff.mp hm)
        · rw [hm]; exact Nat.zero_le _
      · rcases foldlMax_mem_or_init (b :: u) 0 with hm | hm
        · exact le_foldlMax_of_mem 0 (h.mem_iff.mpr hm)
        · rw [hm]; exact Nat.zero_le _

/-- A matching symbol is at most as long as the remaining input. -/
theorem listStarts_length_le : ∀ {p cs : List Char}, listStarts p cs = true →
    p.length ≤ cs.length
  | [], _, _ => Nat.zero_le _
  | _ :: _, [], h => by simp [listStarts] at h
  | a :: as, b :: bs, h => by
    simp only [listStarts, Bool.and_eq_true, decide_eq_true_eq] at h
    exact Nat.succ_le_succ (listStarts_length_le h.2)

/-- A matching symbol contributes its length to `matchLens`. -/
theorem mem_matchLens {l : List String} {cs : List Char} {s : String}
    (hs : s ∈ l) (hp : listStarts s.data cs = true) : s.length ∈ matchLens l cs := by
  unfold matchLens
  exact List.mem_map_of_mem _ (List.mem_filter.mpr ⟨hs, by simpa using hp⟩)

/-- Elements of `matchLens` are bounded by the input length. -/
theorem matchLens_le {l : List String} {cs : List Char} {x : Nat}
    (hx : x ∈ matchLens l cs) : x ≤ cs.length := by
  unfold matchLens at hx
  rcases List.mem_map.mp hx with ⟨s, hsmem, rfl⟩
  have h := (List.mem_filter.mp hsmem).2
  exact listStarts_length_le (by simpa using h)

/-! Helper lemmas for the greedy ANNOTATION lexer. -/

/-- A list all of whose elements satisfy the predicate is its own
`takeWhile`. -/
theorem takeWhile_all {l : List Char} {p : Char → Bool}
    (h : ∀ c ∈ l, p c = true) : l.takeWhile p = l := by
  induction l with
  | nil => rfl
  | cons a t ih =>
    have ht := ih (fun c hc => h c (List.mem_cons_of_mem a hc))
    simp [List.takeWhile_cons, h a (List.mem_cons_self a t), ht]

/-- Without a closing brace there is no rightmost closing brace. -/
theorem lastCloseIdx_eq_none {t : List Char} (h : '}' ∉ t) :
    lastCloseIdx t = none := by
  induction t with
  | nil => rfl
  | cons a u ih =>
    have ha : ¬(a = '}') := fun hc => h (List.mem_cons.mpr (Or.inl hc.symm))
    have hu : '}' ∉ u := fun hc => h (List.mem_cons_of_mem a hc)
    simp [lastCloseIdx, ih hu, ha]

/-- The rightmost closing brace of `s ++ '}' :: t` with a brace-free tail `t`
sits right after `s`. -/
theorem lastCloseIdx_append {s t : List Char} (h : '}' ∉ t) :
    lastCloseIdx (s ++ '}' :: t) = some s.length := by
  induction s with
  | nil => simp [lastCloseIdx, lastCloseIdx_eq_none h]
  | cons a s' ih => simp [lastCloseIdx, ih]

/-- Dropping one element past the left part of an append. -/
theorem drop_len_succ_append (s : List Char) (c : Char) (t : List Char) :
    (s ++ c :: t).drop (s.length + 1) = t := by
  induction s with
  | nil => rfl
  | cons a s' ih => exact ih

/-! The claims. -/

/-- C1: the spec says parsing `"g/(8.h){shift}"` yields a metric-unit term
`g` followed by a group term with operator `/`, annotation `shift` and two
members.  The code parses the string but its transformer crashes: the
`component` callback merges the parenthesized term's LIST into a dict with
`{**args[0], **args[1]}`, a Python `TypeError`.  No group/members record is
ever produced. -/
theorem claim_C1 :
    parseAndTransform vocabSI "g/(8.h)\x7bshift\x7d" = .transformError := rfl

/-- C2: the spec says parsing `"100/{cells}"` yields the flat two-term
sequence `[{factor: 100}, {annotation: "cells", operator: /}]`.  The code
instead produces a singleton wrapping that sequence, and the annotation field
is `"{"` — the ANNOTATION callback evaluates `str(args[0])` on the matched
token (braces included), i.e. the token's first character. -/
theorem claim_C2 :
    parseAndTransform vocabSI "100/\x7bcells\x7d" =
      .ok (.vlist [.vlist [
        .vdict [("factor", .vint 100)],
        .vdict [("operator", .vstr "/"), ("annotation", .vstr "\x7b")]]]) := rfl

/-- C3 (counterexample): parsing `"kg.m/s2"` does not return a flat
three-term sequence: the `start` callback wraps the term's list in a
singleton, so the top-level sequence has exactly one element. -/
theorem claim_C3_counterexample :
    topLen (parseAndTransform vocabSI "kg.m/s2") = some 1 ∧ (1 : Nat) ≠ 3 :=
  ⟨rfl, by decide⟩

/-- C3 (amended): parsing `"kg.m/s2"` returns a singleton sequence wrapping
the inner three-element sequence `[{prefix: k, metric g}, {operator: ., metric
m}, {operator: /, metric s, exponent 2}]`. -/
theorem claim_C3 :
    parseAndTransform vocabSI "kg.m/s2" =
      .ok (.vlist [.vlist [
        .vdict [("prefix", .vstr "k"), ("type", .vstr "metric"), ("unit", .vstr "g")],
        .vdict [("operator", .vstr "."), ("type", .vstr "metric"), ("unit", .vstr "m")],
        .vdict [("operator", .vstr "/"), ("type", .vstr "metric"), ("unit", .vstr "s"),
                ("exponent", .vint 2)]]]) := rfl

/-- C4: the spec says every exponent token of any length is attached as its
signed integer value (`"m23"` ↦ 23, `"m123"` ↦ 123, `"m-12"` ↦ -12).  The
EXPONENT callback only handles tokens of one or two characters (its length
tests were written for a list of children); for longer tokens it returns
`None` and the subsequent merge raises a `TypeError`. -/
theorem claim_C4 :
    parseAndTransform vocabSI "m23" =
      .ok (.vlist [.vdict [("type", .vstr "metric"), ("unit", .vstr "m"),
        ("exponent", .vint 23)]]) ∧
    parseAndTransform vocabSI "m123" = .transformError ∧
    parseAndTransform vocabSI "m-12" = .transformError :=
  ⟨rfl, rfl, rfl⟩

/-- C5: terminal-class matching is maximal munch, independent of the order in
which the vocabulary provider supplies the symbols: permuting a terminal
class leaves `matchSym` unchanged, a matching symbol guarantees a match, and
the matched token is at least as long as every matching symbol (so a
one-character prefix followed by an atom starting with that character is
never mis-split).  (Spec-modelled: the matching itself is done by the
external lark library; `matchSym` embeds the maximal-munch policy the spec
prescribes for it.) -/
theorem claim_C5 (l l' : List String) (cs : List Char) (hp : l.Perm l') :
    matchSym l cs = matchSym l' cs ∧
    (∀ s, s ∈ l → listStarts s.data cs = true → matchSym l cs ≠ none) ∧
    (∀ s t r, s ∈ l → listStarts s.data cs = true →
      matchSym l cs = some (t, r) → s.length ≤ t.length) := by
  refine ⟨?_, ?_, ?_⟩
  · unfold matchSym matchLens
    rw [maxLen_perm ((hp.filter _).map _)]
  · intro s hs hpre
    have hmem := mem_matchLens hs hpre
    unfold matchSym
    cases hml : matchLens l cs with
    | nil => rw [hml] at hmem; cases hmem
    | cons n ns => simp [maxLen]
  · intro s t r hs hpre hEq
    have hmem := mem_matchLens hs hpre
    unfold matchSym at hEq
    cases hml : matchLens l cs with
    | nil => rw [hml] at hmem; cases hmem
    | cons n ns =>
      rw [hml] at hEq hmem
      simp only [maxLen, Option.some.injEq, Prod.mk.injEq] at hEq
      obtain ⟨ht, hr⟩ := hEq
      subst ht
      rw [List.length_take]
      refine Nat.le_min.mpr ⟨le_foldlMax_of_mem 0 hmem, ?_⟩
      exact listStarts_length_le hpre

/-- C5 witness: with prefixes `d` and `da` supplied in either order, matching
on `"dam"` picks the longer symbol `da`. -/
theorem claim_C5_witness :
    (["d", "da"] : List String).Perm ["da", "d"] ∧
    (matchSym ["d", "da"] "dam".data = matchSym ["da", "d"] "dam".data ∧
     (∀ s, s ∈ (["d", "da"] : List String) → listStarts s.data "dam".data = true →
        matchSym ["d", "da"] "dam".data ≠ none) ∧
     (∀ s t r, s ∈ (["d", "da"] : List String) → listStarts s.data "dam".data = true →
        matchSym ["d", "da"] "dam".data = some (t, r) → s.length ≤ t.length)) :=
  ⟨by decide, claim_C5 ["d", "da"] ["da", "d"] "dam".data (by decide)⟩

/-- C6: parsing `"km2"` yields exactly one term, a metric unit `m` with
prefix `k` and exponent 2, and no annotation or operator key. -/
theorem claim_C6 :
    parseAndTransform vocabSI "km2" =
      .ok (.vlist [.vdict [("prefix", .vstr "k"), ("type", .vstr "metric"),
        ("unit", .vstr "m"), ("exponent", .vint 2)]]) := rfl

/-- C7: `"m0"` fails to parse (a SyntaxError, no partial structure), and a
digit sequence starting with `0` is never lexed as an EXPONENT or a FACTOR,
whatever follows. -/
theorem claim_C7 :
    parseAndTransform vocabSI "m0" = .synError ∧
    ∀ rest : List Char, lexExponent ('0' :: rest) = none ∧
      lexFactor ('0' :: rest) = none := by
  refine ⟨rfl, fun rest => ⟨?_, ?_⟩⟩
  · have h1 : ('0' = '+' || '0' = '-') = false := by decide
    have h2 : isNZ '0' = false := by decide
    simp [lexExponent, lexNonZeroDigits, h1, h2]
  · have h2 : isNZ '0' = false := by decide
    simp [lexFactor, lexNonZeroDigits, h2]

/-- C7 witness: the lexer facts instantiated at the digits of `"m0"`. -/
theorem claim_C7_witness :
    parseAndTransform vocabSI "m0" = .synError ∧
    lexExponent ('0' :: []) = none ∧ lexFactor ('0' :: []) = none :=
  ⟨claim_C7.1, (claim_C7.2 []).1, (claim_C7.2 []).2⟩

/-- C8 (counterexample): the ANNOTATION terminal is greedy, not
shortest-match: `"{a}.{b}"` is lexed as a single annotation token covering
the whole string, and parsing it yields ONE term, not two annotation terms
joined by an operator. -/
theorem claim_C8_counterexample :
    lexAnn ("\x7ba\x7d.\x7bb\x7d".data) = some ("\x7ba\x7d.\x7bb\x7d".data, []) ∧
    topLen (parseAndTransform vocabSI "\x7ba\x7d.\x7bb\x7d") = some 1 :=
  ⟨rfl, rfl⟩

/-- C8 (amended): an ANNOTATION token consists of `{` followed by the maximal
run of printable ASCII, ending at the LAST `}` of that run (greedy
backtracking regex): for printable `s` and a printable, brace-free tail `t`,
the token is `{` ++ s ++ `}` — so the body may extend past an earlier closing
brace inside `s`. -/
theorem claim_C8_amended (s t : List Char)
    (hs : ∀ c ∈ s, printable c = true) (ht : ∀ c ∈ t, printable c = true)
    (hnt : '}' ∉ t) :
    lexAnn ('{' :: (s ++ '}' :: t)) = some ('{' :: (s ++ ['}']), t) := by
  have hall : ∀ c ∈ s ++ '}' :: t, printable c = true := by
    intro c hc
    rcases List.mem_append.mp hc with h | h
    · exact hs c h
    · rcases List.mem_cons.mp h with h | h
      · subst h; decide
      · exact ht c h
  show (if '{' = '{' then
      match lastCloseIdx ((s ++ '}' :: t).takeWhile printable) with
      | none => none
      | some k => some ('{' :: (((s ++ '}' :: t).takeWhile printable).take k ++ ['}']),
          (s ++ '}' :: t).drop (k + 1))
    else none) = some ('{' :: (s ++ ['}']), t)
  rw [takeWhile_all hall, lastCloseIdx_append hnt]
  show some ('{' :: ((s ++ '}' :: t).take s.length ++ ['}']),
      (s ++ '}' :: t).drop (s.length + 1)) = some ('{' :: (s ++ ['}']), t)
  rw [List.take_left, drop_len_succ_append]

/-- C8 witness: the amended greedy law applied to the body of `"{a}.{b}"`. -/
theorem claim_C8_amended_witness :
    (∀ c ∈ ("a\x7d.\x7bb".data : List Char), printable c = true) ∧
    lexAnn ('{' :: ("a\x7d.\x7bb".data ++ '}' :: [])) =
      some ('{' :: ("a\x7d.\x7bb".data ++ ['}']), []) :=
  ⟨by decide, claim_C8_amended "a\x7d.\x7bb".data [] (by decide) (by decide) (by decide)⟩

/-- C9: with any empty vocabulary set, grammar construction fails with a
ConfigurationError and no grammar is returned.  (Spec-modelled: the build is
done by the external lark library; `buildGrammar` embeds the build-time
failure the spec prescribes.) -/
theorem claim_C9 (v : Vocab)
    (h : v.pfxSyms = [] ∨ v.metricSyms = [] ∨ v.nonMetricSyms = []) :
    buildGrammar v = .error .configurationError ∧
    ∀ g, buildGrammar v ≠ .ok g := by
  constructor
  · unfold buildGrammar
    rw [if_pos h]
  · intro g hg
    unfold buildGrammar at hg
    rw [if_pos h] at hg
    exact Except.noConfusion hg

/-- C9 witness: a vocabulary with an empty prefix set. -/
theorem claim_C9_witness :
    ((([] : List String) = [] ∨ (["m"] : List String) = [] ∨ (["x"] : List String) = []) ∧
     (buildGrammar ⟨[], ["m"], ["x"]⟩ = .error .configurationError ∧
      ∀ g, buildGrammar ⟨[], ["m"], ["x"]⟩ ≠ .ok g)) :=
  ⟨Or.inl rfl, claim_C9 ⟨[], ["m"], ["x"]⟩ (Or.inl rfl)⟩

/-- C10: the PREFIX callback keeps the full symbol only for the token `"da"`;
every other token is mapped to its first character, so a prefix symbol of
length ≥ 2 other than `"da"` is truncated (the stored prefix differs from the
matched symbol). -/
theorem claim_C10 (s : String) (hda : s ≠ "da") (h2 : 2 ≤ s.length) :
    UnitsTransformer.PrefTok "da" = .vdict [("prefix", .vstr "da")] ∧
    UnitsTransformer.PrefTok s = .vdict [("prefix", .vstr (strTake s 1))] ∧
    strTake s 1 ≠ s := by
  refine ⟨rfl, ?_, ?_⟩
  · unfold UnitsTransformer.PrefTok
    rw [if_neg hda]
  · intro hEq
    have hlen : (strTake s 1).length = 1 := by
      show (s.data.take 1).length = 1
      rw [List.length_take]
      have hd : 2 ≤ s.data.length := h2
      omega
    rw [hEq] at hlen
    have hd2 : 2 ≤ s.length := h2
    rw [hlen] at hd2
    exact absurd hd2 (by decide)

/-- C10 witness: a hypothetical two-character prefix symbol `kx` is truncated
to `k`. -/
theorem claim_C10_witness :
    ("kx" : String) ≠ "da" ∧ 2 ≤ ("kx" : String).length ∧
    (UnitsTransformer.PrefTok "da" = .vdict [("prefix", .vstr "da")] ∧
     UnitsTransformer.PrefTok "kx" = .vdict [("prefix", .vstr (strTake "kx" 1))] ∧
     strTake "kx" 1 ≠ "kx") :=
  ⟨by decide, by decide, claim_C10 "kx" (by decide) (by decide)⟩

end Ucumvert
